import Mathlib

/-!
Verification development for a flow-sensitive static-analysis checker that
detects factory-produced parser handles used without a prior configuring call
(CWE-611 / XXE exposure pattern).  The repository ships the behavioural test
file `cpp/ql/test/query-tests/Security/CWE/CWE-611/tests5.cpp`; the detection
engine itself (state lattice, intraprocedural flow engine, alias/global
tracker, classifier) is described by the specification and is modelled here
from the specification's words.  The concrete test programs `test5_1`,
`test5_2`, `test5_3_init` and `test5_3` are embedded from the source file.
-/

namespace Cortex

/-- Modelled from the spec: the three-valued abstract safety state of a
tracked handle (spec §3, "SafetyState").  The engine source is not in the
repository; only its test file is. -/
inductive SafetyState where
  | Unconfigured
  | Configured
  | Unknown
deriving DecidableEq, Repr, Fintype

open SafetyState

/-- Modelled from the spec: the lattice join (spec §4.2): `Configured` only
if both inputs are `Configured`; `Unconfigured` if both are `Unconfigured`;
otherwise `Unknown`. -/
def join : SafetyState → SafetyState → SafetyState
  | Configured, Configured => Configured
  | Unconfigured, Unconfigured => Unconfigured
  | _, _ => Unknown

/-- The lattice order induced by `join`: `a ⊑ b` iff `join a b = b`. -/
def slle (a b : SafetyState) : Prop := join a b = b

instance : DecidablePred fun p : SafetyState × SafetyState => slle p.1 p.2 :=
  fun p => by unfold slle; infer_instance

instance (a b : SafetyState) : Decidable (slle a b) := by
  unfold slle; infer_instance

/-- Modelled from the spec: lattice join lifted to optionally-tracked states,
with `none` (handle not tracked at all) as bottom.  Used by the alias/global
tracker's monotone-merge structure (spec §5). -/
def joinO : Option SafetyState → Option SafetyState → Option SafetyState
  | none, b => b
  | a, none => a
  | some a, some b => some (join a b)

/-- Modelled from the spec: state combination at a control-flow merge point
(spec §4.3): the state of each handle is the lattice join of its states along
each incoming edge, and a handle tracked on some incoming edges but not on
others has the missing edges treated as `Unconfigured`. -/
def mergeOpt : Option SafetyState → Option SafetyState → Option SafetyState
  | some a, some b => some (join a b)
  | some a, none => some (join a Unconfigured)
  | none, some b => some (join Unconfigured b)
  | none, none => none

/-- Storage locations (local variables, global variables): the canonical keys
the global-symbol resolver supplies (spec §6). -/
abbrev Loc := Nat

/-- Use-site identifiers; the embedding uses the source line number of the
call. -/
abbrev Site := Nat

/-- Modelled from the spec: a Finding is a (use-site, handle storage location,
observed SafetyState) tuple (spec §3). -/
structure Finding where
  site : Site
  loc : Loc
  state : SafetyState
deriving DecidableEq, Repr

/-- Modelled from the spec: the per-program-point abstract state, a mapping
from storage locations to the tracked SafetyState; `none` means the location
does not denote a tracked handle at that point (spec §4.3). -/
abbrev AbsState := Loc → Option SafetyState

/-- The abstract state in which no location is tracked (function entry). -/
def emptyState : AbsState := fun _ => none

/-- Update the abstract state at one storage location. -/
def setLoc (st : AbsState) (L : Loc) (v : Option SafetyState) : AbsState :=
  fun M => if M = L then v else st M

/-- Modelled from the spec: the statement forms the flow engine interprets
(spec §4.3): a factory call assigned to storage L, a configuring call on L, a
use call on L at a given site, an overwrite of L with an unrelated value,
a statement not affecting tracked state, sequencing, and a two-way branch
whose arms rejoin at a merge point. -/
inductive Stmt where
  | skip
  | create (L : Loc)
  | configure (L : Loc)
  | use (site : Site) (L : Loc)
  | assignOther (L : Loc)
  | seq (a b : Stmt)
  | branch (thn els : Stmt)
deriving DecidableEq, Repr

/-- Modelled from the spec: the forward-dataflow transfer of the
intraprocedural flow engine (spec §4.3).  It returns the abstract state after
the statement together with the Findings emitted inside it:
factory call ⇒ state `Unconfigured`; configuring call (only when the location
currently denotes a tracked handle) ⇒ state `Configured`; unrelated overwrite
⇒ tracked state cleared; use call ⇒ a Finding at the site unless the state is
`Configured`; sequencing in program order; branches analysed on both arms and
merged with `mergeOpt`. -/
def run : Stmt → AbsState → AbsState × List Finding
  | Stmt.skip, st => (st, [])
  | Stmt.create L, st => (setLoc st L (some Unconfigured), [])
  | Stmt.configure L, st =>
      (match st L with
       | some _ => setLoc st L (some Configured)
       | none => st, [])
  | Stmt.use site L, st =>
      (st, match st L with
           | some Configured => []
           | some s => [⟨site, L, s⟩]
           | none => [])
  | Stmt.assignOther L, st => (setLoc st L none, [])
  | Stmt.seq a b, st =>
      let ra := run a st
      let rb := run b ra.1
      (rb.1, ra.2 ++ rb.2)
  | Stmt.branch t e, st =>
      let rt := run t st
      let re := run e st
      (fun L => mergeOpt (rt.1 L) (re.1 L), rt.2 ++ re.2)

/-- Modelled from the spec: `runOnFunction` (spec §6) analyses one function
body starting from the empty abstract state and returns its Findings. -/
def runOnFunction (body : Stmt) : AbsState × List Finding :=
  run body emptyState

/-- Modelled from the spec: `runOnProgram` (spec §6, §4.4) analyses the
function bodies in call-graph topological order, threading the global handle
records (here: the shared abstract state over global storage locations)
through the pass, and accumulates all Findings. -/
def runOnProgram (bodies : List Stmt) : AbsState × List Finding :=
  bodies.foldl
    (fun acc body =>
      let r := run body acc.1
      (r.1, acc.2 ++ r.2))
    (emptyState, [])

/-! Embedding of the test programs of
`src/cpp/ql/test/query-tests/Security/CWE/CWE-611/tests5.cpp`.
Storage locations: `0` is the local `p` of `test5_1`/`test5_2`; `1` and `2`
are the globals `g_p1` and `g_p2`.  Use sites carry the source line number. -/

/-- Storage location of the local variable `p`. -/
def pLoc : Loc := 0

/-- Storage location of the global `g_p1` (tests5.cpp line 31). -/
def gP1 : Loc := 1

/-- Storage location of the global `g_p2` (tests5.cpp line 31). -/
def gP2 : Loc := 2

/-- Body of `test5_1` (tests5.cpp lines 17-21):
`p = impl->createLSParser(); p->parse(data);` — create then use, no
configuring call. -/
def test5_1 : Stmt :=
  Stmt.seq (Stmt.create pLoc) (Stmt.use 20 pLoc)

/-- Body of `test5_2` (tests5.cpp lines 23-28): create, then
`p->setDisableDefaultEntityResolution(true)`, then `p->parse(data)`. -/
def test5_2 : Stmt :=
  Stmt.seq (Stmt.create pLoc)
    (Stmt.seq (Stmt.configure pLoc) (Stmt.use 27 pLoc))

/-- Body of `test5_3_init` (tests5.cpp lines 34-39):
`g_p1 = g_impl->createLSParser(); g_p1->setDisableDefaultEntityResolution(true);
g_p2 = g_impl->createLSParser();`. -/
def test5_3_init : Stmt :=
  Stmt.seq (Stmt.create gP1)
    (Stmt.seq (Stmt.configure gP1) (Stmt.create gP2))

/-- Uses performed by `test5_3` (tests5.cpp lines 41-46):
`g_p1->parse(*g_data);` at line 44 and `g_p2->parse(*g_data);` at line 45.
The call `test5_3_init();` at line 42 is represented by placing
`test5_3_init` before this body in the call-graph topological order of
`runOnProgram` (spec §4.4: an explicit init function called before
dependents). -/
def test5_3_uses : Stmt :=
  Stmt.seq (Stmt.use 44 gP1) (Stmt.use 45 gP2)

/-- The whole program of E2E scenario C: `test5_3_init` then `test5_3`, in
call-graph topological order. -/
def program5_3 : List Stmt := [test5_3_init, test5_3_uses]

/-- A statement is straight-line, emits no Finding, and does not affect the
tracked state of location `L`: it is a sequence of skips and of
creations/configurations/overwrites of other locations. -/
def neutralFor (L : Loc) : Stmt → Bool
  | Stmt.skip => true
  | Stmt.create M => M != L
  | Stmt.configure M => M != L
  | Stmt.assignOther M => M != L
  | Stmt.use _ _ => false
  | Stmt.seq a b => neutralFor L a && neutralFor L b
  | Stmt.branch _ _ => false

/-- Does the statement syntactically contain a configuring call on `L`
(including inside branch arms)? -/
def hasConfigureOn (L : Loc) : Stmt → Bool
  | Stmt.configure M => M == L
  | Stmt.seq a b => hasConfigureOn L a || hasConfigureOn L b
  | Stmt.branch t e => hasConfigureOn L t || hasConfigureOn L e
  | _ => false

/-! Theorems. -/

instance : RightCommutative join := ⟨by decide⟩

theorem run_seq (a b : Stmt) (st : AbsState) :
    run (Stmt.seq a b) st
      = ((run b (run a st).1).1, (run a st).2 ++ (run b (run a st).1).2) := rfl

/-- Statements neutral for `L` leave the tracked state of `L` unchanged and
emit no Finding. -/
theorem neutral_run (L : Loc) (s : Stmt) : ∀ st : AbsState,
    neutralFor L s = true → (run s st).1 L = st L ∧ (run s st).2 = [] := by
  induction s with
  | skip => exact fun st _ => ⟨rfl, rfl⟩
  | create M =>
    intro st h
    simp only [neutralFor, bne_iff_ne, ne_eq] at h
    exact ⟨by simp [run, setLoc, Ne.symm h], rfl⟩
  | configure M =>
    intro st h
    simp only [neutralFor, bne_iff_ne, ne_eq] at h
    cases hm : st M with
    | none => simp [run, hm]
    | some v => simp [run, hm, setLoc, Ne.symm h]
  | use site M => intro st h; simp [neutralFor] at h
  | assignOther M =>
    intro st h
    simp only [neutralFor, bne_iff_ne, ne_eq] at h
    exact ⟨by simp [run, setLoc, Ne.symm h], rfl⟩
  | seq a b iha ihb =>
    intro st h
    simp only [neutralFor, Bool.and_eq_true] at h
    obtain ⟨ha1, ha2⟩ := iha st h.1
    obtain ⟨hb1, hb2⟩ := ihb (run a st).1 h.2
    rw [run_seq]
    exact ⟨by rw [hb1, ha1], by rw [ha2, hb2]; rfl⟩
  | branch t e iht ihe => intro st h; simp [neutralFor] at h

/-- C1: in a straight-line body that creates a tracked handle at `L` and then
uses it with no configuring call in between (any neutral statements between),
the engine emits exactly one Finding, at the use site, with observed state
`Unconfigured`; with a configuring call before the use it emits zero
Findings.  Instantiated by `test5_1` and `test5_2` of tests5.cpp. -/
theorem C1_straight_line_soundness (L : Loc) (site : Site) (mid : Stmt)
    (st : AbsState) (h : neutralFor L mid = true) :
    (run (Stmt.seq (Stmt.create L) (Stmt.seq mid (Stmt.use site L))) st).2
      = [⟨site, L, Unconfigured⟩] ∧
    (run (Stmt.seq (Stmt.create L)
        (Stmt.seq mid (Stmt.seq (Stmt.configure L) (Stmt.use site L)))) st).2
      = [] ∧
    (runOnFunction test5_1).2 = [⟨20, pLoc, Unconfigured⟩] ∧
    (runOnFunction test5_2).2 = [] := by
  have hm := neutral_run L mid (setLoc st L (some Unconfigured)) h
  have hmL : (run mid (setLoc st L (some Unconfigured))).1 L
      = some Unconfigured := by
    rw [hm.1]; simp [setLoc]
  refine ⟨?_, ?_, by decide, by decide⟩
  · show [] ++ ((run mid (setLoc st L (some Unconfigured))).2 ++
      (run (Stmt.use site L)
        (run mid (setLoc st L (some Unconfigured))).1).2) = _
    rw [hm.2]
    simp [run, hmL]
  · show [] ++ ((run mid (setLoc st L (some Unconfigured))).2 ++
      ((run (Stmt.configure L)
          (run mid (setLoc st L (some Unconfigured))).1).2 ++
        (run (Stmt.use site L)
          (run (Stmt.configure L)
            (run mid (setLoc st L (some Unconfigured))).1).1).2)) = []
    have hconf : run (Stmt.configure L)
        (run mid (setLoc st L (some Unconfigured))).1
        = (setLoc (run mid (setLoc st L (some Unconfigured))).1 L
            (some Configured), []) := by
      simp [run, hmL]
    rw [hm.2, hconf]
    simp [run, setLoc]

/-- Witness for C1: the empty neutral middle, matching `test5_1` and
`test5_2` literally. -/
theorem C1_straight_line_soundness_witness :
    (run (Stmt.seq (Stmt.create pLoc)
        (Stmt.seq Stmt.skip (Stmt.use 20 pLoc))) emptyState).2
      = [⟨20, pLoc, Unconfigured⟩] :=
  (C1_straight_line_soundness pLoc 20 Stmt.skip emptyState rfl).1

/-- C2: running the whole program `test5_3_init; test5_3` emits a Finding at
the line-45 use of global `g_p2`, whose storage location was assigned a
factory result but never configured (its tracked state there is
`Unconfigured`). -/
theorem C2_unconfigured_global_flagged :
    Finding.mk 45 gP2 Unconfigured ∈ (runOnProgram program5_3).2 ∧
    (runOnProgram program5_3).1 gP2 = some Unconfigured := by
  decide

/-- C3: the same whole-program run emits no Finding at the line-44 use of
global `g_p1`, which was configured on every path reaching that use (its
tracked state there is `Configured`). -/
theorem C3_configured_global_not_flagged :
    ((runOnProgram program5_3).2.filter fun f => f.site == 44) = [] ∧
    (runOnProgram program5_3).1 gP1 = some Configured := by
  decide

/-- C4: a handle created before a two-way branch, configured on exactly one
arm and used after the merge, has state `join Configured Unconfigured =
Unknown` at the use, and exactly one Finding is emitted at that use site. -/
theorem C4_branch_merge_conservatism (L : Loc) (site : Site) (st : AbsState)
    (t e : Stmt)
    (h : (t = Stmt.configure L ∧ e = Stmt.skip) ∨
         (t = Stmt.skip ∧ e = Stmt.configure L)) :
    (run (Stmt.seq (Stmt.create L) (Stmt.branch t e)) st).1 L
      = some (join Configured Unconfigured) ∧
    join Configured Unconfigured = Unknown ∧
    (run (Stmt.seq (Stmt.create L)
        (Stmt.seq (Stmt.branch t e) (Stmt.use site L))) st).2
      = [⟨site, L, Unknown⟩] := by
  rcases h with ⟨ht, he⟩ | ⟨ht, he⟩ <;> subst ht <;> subst he <;>
    refine ⟨?_, rfl, ?_⟩ <;> simp [run, setLoc, mergeOpt, join]

/-- Witness for C4: the configuring arm taken first, at location `0` and use
site `5`, from the empty state. -/
theorem C4_branch_merge_conservatism_witness :
    (run (Stmt.seq (Stmt.create 0)
        (Stmt.seq (Stmt.branch (Stmt.configure 0) Stmt.skip)
          (Stmt.use 5 0))) emptyState).2
      = [⟨5, 0, Unknown⟩] :=
  (C4_branch_merge_conservatism 0 5 emptyState (Stmt.configure 0) Stmt.skip
    (Or.inl ⟨rfl, rfl⟩)).2.2

/-- C9: the frame property of the transfer function: a statement that
creates, configures or overwrites storage `M` leaves the tracked state of
every other location `L` unchanged; concretely, in `test5_3_init` the
assignment to `g_p2` made after `g_p1` is configured leaves `g_p1` at
`Configured`, so the later `g_p1->parse` at line 44 produces no Finding. -/
theorem C9_frame_property (st : AbsState) (L M : Loc) (h : L ≠ M) :
    ((run (Stmt.create M) st).1 L = st L ∧
     (run (Stmt.configure M) st).1 L = st L ∧
     (run (Stmt.assignOther M) st).1 L = st L) ∧
    (run test5_3_init emptyState).1 gP1 = some Configured ∧
    ((runOnProgram program5_3).2.filter fun f => f.site == 44) = [] := by
  refine ⟨⟨?_, ?_, ?_⟩, by decide, by decide⟩
  · simp [run, setLoc, h]
  · cases hm : st M with
    | none => simp [run, hm]
    | some v => simp [run, hm, setLoc, h]
  · simp [run, setLoc, h]

/-- Witness for C9: locations `0 ≠ 1` from the empty state. -/
theorem C9_frame_property_witness :
    (run (Stmt.create 1) emptyState).1 0 = emptyState 0 :=
  (C9_frame_property emptyState 0 1 (by decide)).1.1

/-- C5: `join a b` is `Configured` iff both inputs are `Configured`,
`Unconfigured` iff both are `Unconfigured`, and `Unknown` in every other
case; `Unknown` is the join of `Unconfigured` and `Configured`, is an upper
bound of any pair's lower bounds in the `slle` order, and is the top element
of the three-element SafetyState lattice. -/
theorem C5_join_lattice :
    (∀ a b, join a b = Configured ↔ (a = Configured ∧ b = Configured)) ∧
    (∀ a b, join a b = Unconfigured ↔ (a = Unconfigured ∧ b = Unconfigured)) ∧
    (∀ a b, (¬(a = Configured ∧ b = Configured) ∧
             ¬(a = Unconfigured ∧ b = Unconfigured)) ↔ join a b = Unknown) ∧
    join Unconfigured Configured = Unknown ∧
    (∀ c, slle Unconfigured c → slle Configured c → slle Unknown c) ∧
    (∀ a, slle a Unknown) := by
  decide

/-- Witness for C5: the least-upper-bound clause applied at `c = Unknown`. -/
theorem C5_join_lattice_witness : slle Unknown Unknown :=
  C5_join_lattice.2.2.2.2.1 Unknown (by decide) (by decide)

/-- C6: `join` is commutative and associative, and therefore folding any
finite collection of state updates with `join` yields the same final state
for any two orders (permutations) of the updates. -/
theorem C6_join_comm_assoc_fold :
    (∀ a b, join a b = join b a) ∧
    (∀ a b c, join (join a b) c = join a (join b c)) ∧
    (∀ (s : SafetyState) (l l' : List SafetyState),
      l.Perm l' → l.foldl join s = l'.foldl join s) := by
  refine ⟨by decide, by decide, fun s l l' hp => hp.foldl_eq s⟩

/-- Witness for C6: the fold clause applied to the concrete permutation
`[Unconfigured, Configured] ~ [Configured, Unconfigured]`. -/
theorem C6_join_comm_assoc_fold_witness :
    [Unconfigured, Configured].foldl join Unknown
      = [Configured, Unconfigured].foldl join Unknown :=
  C6_join_comm_assoc_fold.2.2 Unknown [Unconfigured, Configured]
    [Configured, Unconfigured] (by decide)

/-- At a merge, a handle is `Configured` only when it is `Configured` along
both incoming edges. -/
theorem mergeOpt_configured (x y : Option SafetyState)
    (h : mergeOpt x y = some Configured) :
    x = some Configured ∧ y = some Configured := by
  revert h
  revert x y
  decide

/-- A location can be `Configured` after a statement only if it already was
before it, or the statement contains a configuring call on it. -/
theorem configured_source (s : Stmt) : ∀ (st : AbsState) (L : Loc),
    (run s st).1 L = some Configured →
    st L = some Configured ∨ hasConfigureOn L s = true := by
  induction s with
  | skip => exact fun st L h => Or.inl h
  | create M =>
    intro st L h
    by_cases hLM : L = M
    · subst hLM; simp [run, setLoc] at h
    · left; simpa [run, setLoc, hLM] using h
  | configure M =>
    intro st L h
    by_cases hLM : L = M
    · subst hLM; right; simp [hasConfigureOn]
    · left
      cases hm : st M with
      | none => simpa [run, hm] using h
      | some v => simpa [run, hm, setLoc, hLM] using h
  | use site M => exact fun st L h => Or.inl h
  | assignOther M =>
    intro st L h
    by_cases hLM : L = M
    · subst hLM; simp [run, setLoc] at h
    · left; simpa [run, setLoc, hLM] using h
  | seq a b iha ihb =>
    intro st L h
    have hb : (run b (run a st).1).1 L = some Configured := h
    rcases ihb (run a st).1 L hb with hmid | hc
    · rcases iha st L hmid with hst | hc
      · exact Or.inl hst
      · right; simp [hasConfigureOn, hc]
    · right; simp [hasConfigureOn, hc]
  | branch t e iht ihe =>
    intro st L h
    have hmerge : mergeOpt ((run t st).1 L) ((run e st).1 L)
        = some Configured := h
    obtain ⟨hx, _⟩ := mergeOpt_configured _ _ hmerge
    rcases iht st L hx with hst | hc
    · exact Or.inl hst
    · right; simp [hasConfigureOn, hc]

/-- C7: monotonicity invariant: a location's state is `Configured` after a
statement only because it already was, or because an explicit configuring
call on it occurs in the statement — never spontaneously; and merging only
moves states upward (toward the unsafe `Unknown`) in the lattice order. -/
theorem C7_no_spontaneous_configured (s : Stmt) (st : AbsState) (L : Loc)
    (h : (run s st).1 L = some Configured) :
    (st L = some Configured ∨ hasConfigureOn L s = true) ∧
    (∀ x y : Option SafetyState, joinO x (mergeOpt x y) = mergeOpt x y) :=
  ⟨configured_source s st L h, by decide⟩

/-- Witness for C7: `create` then `configure` at location `0` from the empty
state ends `Configured`, and the body indeed contains the configuring
call. -/
theorem C7_no_spontaneous_configured_witness :
    emptyState 0 = some Configured ∨
    hasConfigureOn 0 (Stmt.seq (Stmt.create 0) (Stmt.configure 0)) = true :=
  (C7_no_spontaneous_configured
    (Stmt.seq (Stmt.create 0) (Stmt.configure 0)) emptyState 0 (by decide)).1

/-- Height rank of an optionally-tracked state in the lattice with `none`
(untracked) as bottom, `Unconfigured`/`Configured` in the middle and
`Unknown` on top: the lattice has finite height 3. -/
def orank : Option SafetyState → Nat
  | none => 0
  | some Unconfigured => 1
  | some Configured => 1
  | some Unknown => 2

/-- Modelled from the spec: one round of the worklist fixed-point iteration
over a control-flow graph with `n` program points (spec §4.3, §5, §9): each
point's state is joined (monotone merge) with the transferred states of its
predecessor points, so per-point states only move up the finite-height
lattice.  `pred` gives each point's predecessors and `tf` the per-point
transfer function. -/
def cfgStep (n : Nat) (pred : Fin n → List (Fin n))
    (tf : Fin n → Option SafetyState → Option SafetyState)
    (x : Fin n → Option SafetyState) : Fin n → Option SafetyState :=
  fun i => joinO (x i) (((pred i).map fun j => tf j (x j)).foldl joinO none)

/-- Total rank of an iteration state: the sum of the per-point ranks. -/
def totalRank (n : Nat) (x : Fin n → Option SafetyState) : Nat :=
  Finset.univ.sum fun i => orank (x i)

theorem totalRank_le (n : Nat) (x : Fin n → Option SafetyState) :
    totalRank n x ≤ 2 * n := by
  have h1 : totalRank n x ≤ Finset.univ.sum fun _ : Fin n => 2 :=
    Finset.sum_le_sum fun i _ => by
      have : ∀ a : Option SafetyState, orank a ≤ 2 := by decide
      exact this (x i)
  simpa [mul_comm] using h1

/-- Each iteration round strictly increases the total rank unless the state
is already a fixed point. -/
theorem cfgStep_progress (n : Nat) (pred : Fin n → List (Fin n))
    (tf : Fin n → Option SafetyState → Option SafetyState)
    (x : Fin n → Option SafetyState) (h : cfgStep n pred tf x ≠ x) :
    totalRank n x < totalRank n (cfgStep n pred tf x) := by
  have hex : ∃ i, cfgStep n pred tf x i ≠ x i := by
    by_contra hc
    push_neg at hc
    exact h (funext hc)
  obtain ⟨i, hi⟩ := hex
  have hle : ∀ a b : Option SafetyState, orank a ≤ orank (joinO a b) := by
    decide
  have hlt : ∀ a b : Option SafetyState,
      joinO a b ≠ a → orank a < orank (joinO a b) := by
    decide
  apply Finset.sum_lt_sum
  · exact fun j _ => hle (x j) _
  · exact ⟨i, Finset.mem_univ i, hlt (x i) _ hi⟩

/-- After `k` rounds, the iteration has either reached a fixed point or has
accumulated total rank at least `k`. -/
theorem iterate_fix_or_rank (n : Nat)
    (F : (Fin n → Option SafetyState) → Fin n → Option SafetyState)
    (hF : ∀ x, F x ≠ x → totalRank n x < totalRank n (F x)) :
    ∀ (k : Nat) (x0 : Fin n → Option SafetyState),
      F (F^[k] x0) = F^[k] x0 ∨ k ≤ totalRank n (F^[k] x0) := by
  intro k
  induction k with
  | zero =>
    intro x0
    by_cases h : F x0 = x0
    · exact Or.inl h
    · exact Or.inr (Nat.zero_le _)
  | succ k ih =>
    intro x0
    rcases ih x0 with h | h
    · left
      have e : F^[k + 1] x0 = F^[k] x0 := by
        rw [Function.iterate_succ_apply', h]
      rw [e, h]
    · by_cases hf : F (F^[k] x0) = F^[k] x0
      · left
        rw [Function.iterate_succ_apply', hf]
        exact hf
      · right
        have hlt := hF _ hf
        have e : F^[k + 1] x0 = F (F^[k] x0) := Function.iterate_succ_apply' F k x0
        rw [e]
        omega

/-- C8: the worklist fixed-point iteration terminates on every control-flow
graph (any predecessor relation, so loops included) and any per-point
transfer function: since per-point states move monotonically up a lattice of
finite height 3, the state after `2n + 1` rounds is a fixed point of the
iteration step. -/
theorem C8_fixed_point_termination (n : Nat) (pred : Fin n → List (Fin n))
    (tf : Fin n → Option SafetyState → Option SafetyState)
    (x0 : Fin n → Option SafetyState) :
    cfgStep n pred tf ((cfgStep n pred tf)^[2 * n + 1] x0)
      = (cfgStep n pred tf)^[2 * n + 1] x0 := by
  rcases iterate_fix_or_rank n (cfgStep n pred tf)
      (fun x hx => cfgStep_progress n pred tf x hx) (2 * n + 1) x0 with h | h
  · exact h
  · have hb := totalRank_le n ((cfgStep n pred tf)^[2 * n + 1] x0)
    omega

/-- Class names of the hierarchy of tests5.cpp (`AbstractDOMParser` is
declared in the missing header tests.h). -/
inductive CName where
  | AbstractDOMParser
  | DOMLSParser
  | DOMImplementationLS
deriving DecidableEq, Repr

/-- Methods each class declares itself.  `DOMLSParser` declares no members of
its own (tests5.cpp lines 7-8) and `DOMImplementationLS` declares
`createLSParser` (line 12).  Modelled from the spec: the member set of
`AbstractDOMParser` lives in the missing header tests.h; per the test calls
and the spec's resource-operation table it carries the use operation `parse`
and the configuring operation `setDisableDefaultEntityResolution`. -/
def ownMethods : CName → List String
  | CName.AbstractDOMParser => ["parse", "setDisableDefaultEntityResolution"]
  | CName.DOMLSParser => []
  | CName.DOMImplementationLS => ["createLSParser"]

/-- Direct base class: `class DOMLSParser : public AbstractDOMParser`
(tests5.cpp line 7). -/
def baseOf : CName → Option CName
  | CName.DOMLSParser => some CName.AbstractDOMParser
  | _ => none

/-- Method lookup along the base-class chain; the fuel bounds the chain
length and 3 covers the whole hierarchy. -/
def resolveMethodAux : Nat → CName → String → Option CName
  | 0, _, _ => none
  | Nat.succ fuel, c, m =>
      if m ∈ ownMethods c then some c
      else
        match baseOf c with
        | some b => resolveMethodAux fuel b m
        | none => none

/-- The class (possibly a base) in which a method named `m` is found when
invoked on a receiver of declared type `c`. -/
def resolveMethod (c : CName) (m : String) : Option CName :=
  resolveMethodAux 3 c m

/-- Modelled from the spec: a ResourceType table entry (spec §3, §6): the
factory, configuring and using operation names of one tracked resource
type. -/
structure ResourceTypeEntry where
  factoryOps : List String
  configuringOps : List String
  usingOps : List String

/-- The table entry for the tracked "LS parser" resource: factory
`createLSParser`, configuring operation `setDisableDefaultEntityResolution`,
use operation `parse`. -/
def lsParserEntry : ResourceTypeEntry :=
  ⟨["createLSParser"], ["setDisableDefaultEntityResolution"], ["parse"]⟩

/-- The declared type of tracked handles: `createLSParser` returns
`DOMLSParser *` (tests5.cpp line 12). -/
def trackedHandleType : CName := CName.DOMLSParser

/-- The classifier's verdict on one call. -/
inductive OpClass where
  | factoryCall
  | configuringCall
  | usingCall
  | notTracked
deriving DecidableEq, Repr

/-- Modelled from the spec: the Handle Classifier (spec §4.1, §9): a call is
classified by the receiver's declared/static type plus the operation name
matched against the ResourceType table; the operation name is resolved along
the base-class chain, and anything unresolvable is "not tracked"
(fail-open). -/
def classify (t : CName) (m : String) : OpClass :=
  match resolveMethod t m with
  | none => OpClass.notTracked
  | some _ =>
      if t = trackedHandleType then
        if m ∈ lsParserEntry.usingOps then OpClass.usingCall
        else if m ∈ lsParserEntry.configuringOps then OpClass.configuringCall
        else OpClass.notTracked
      else if m ∈ lsParserEntry.factoryOps then OpClass.factoryCall
      else OpClass.notTracked

/-- C10: `DOMLSParser` declares no members of its own and `parse` resolves
only through the base class `AbstractDOMParser`, yet for a handle of
declared type `DOMLSParser` the call `p->parse(data)` is classified as a use
operation of the tracked LS-parser resource (and the configuring call is
likewise recognized), so the unconfigured use in `test5_1` is flagged. -/
theorem C10_inherited_use_classified :
    ownMethods CName.DOMLSParser = [] ∧
    resolveMethod CName.DOMLSParser "parse" = some CName.AbstractDOMParser ∧
    classify CName.DOMLSParser "parse" = OpClass.usingCall ∧
    classify CName.DOMLSParser "setDisableDefaultEntityResolution"
      = OpClass.configuringCall ∧
    classify CName.DOMImplementationLS "createLSParser"
      = OpClass.factoryCall ∧
    (runOnFunction test5_1).2 = [⟨20, pLoc, Unconfigured⟩] := by
  refine ⟨rfl, rfl, rfl, rfl, rfl, by decide⟩

end Cortex
